import Mathlib

/-!
Verification of the thrivescraper core: a shallow embedding of the
ThriveDB mapping layer (src/thrivescraper/thrive_db.py) and of the
topic-mining reconciler (src/thrivescraper/thrivescraper.py).

A database state is modelled as the lists of rows of the schema tables,
kept in insertion (rowid) order, together with the list of table names in
creation order (the order sqlite_master reports them). SQL point queries
become list scans: SELECT ... WHERE col = ? with fetchone() is find?, and
SELECT COUNT(*) is countP. A fetchone() that finds no row makes the Python
subscript raise, so the id lookups return Option. The class _Table lives
in src/thrivescraper/table.py, which is not among the given sources; its
append and add_attribute operations are modelled from the spec where
noted.
-/

/-- One row of the metadata table: key (string primary key) and value. -/
structure MetaRow where
  key : String
  value : String
deriving DecidableEq

/-- One row of an id-plus-name table: organizations, categories,
contributors and topics all have exactly the columns id and name. -/
structure NamedRow where
  id : Nat
  name : String
deriving DecidableEq

/-- One row of the repos table, with the full column list declared in
ThriveDB._initialize. Nullable text columns are Option String; archived
is never set by the mining path so it is Option Int. -/
structure RepoRow where
  id : Nat
  active : Int
  full_name : String
  organization : Nat
  name : String
  archived : Option Int
  category : Nat
  created_at : Int
  default_branch : String
  description : Option String
  homepage : Option String
  language : Option String
  license : Option String
  node_id : String
  pushed_at : Int
  updated_at : Int
deriving DecidableEq

/-- One row of the citations table. -/
structure CitationRow where
  id : Nat
  citation_url : String
  n_citation_url : String
deriving DecidableEq

/-- One row of the commits table. -/
structure CommitRow where
  id : Nat
  sha : String
  author : Nat
deriving DecidableEq

/-- One row of the repos_topics join table: a repo reference and a topic
reference, with no uniqueness constraint. -/
structure RTRow where
  repo : Nat
  topic : Nat
deriving DecidableEq

/-- One row of the repos_commits join table. -/
structure RCRow where
  repo : Nat
  commit : Nat
deriving DecidableEq

/-- The state of the SQLite store: the table names recorded in
sqlite_master (in creation order) and the rows of every schema table (in
rowid order). -/
structure DBState where
  table_names : List String
  metadata : List MetaRow
  organizations : List NamedRow
  categories : List NamedRow
  repos : List RepoRow
  citations : List CitationRow
  contributors : List NamedRow
  topics : List NamedRow
  repos_topics : List RTRow
  commits : List CommitRow
  repos_commits : List RCRow
deriving DecidableEq

/-- A brand-new database: sqlite3.connect on a store that holds nothing. -/
def DBState.empty : DBState where
  table_names := []
  metadata := []
  organizations := []
  categories := []
  repos := []
  citations := []
  contributors := []
  topics := []
  repos_topics := []
  commits := []
  repos_commits := []

/-- Python str.strip applied with a double quote: remove every leading and
trailing double-quote character. -/
def stripDQuotesL (l : List Char) : List Char :=
  ((l.dropWhile (fun c => c == '"')).reverse.dropWhile (fun c => c == '"')).reverse

/-- Python str.split on the dot character, over the character list: one
part per dot-separated run, so a dot-free text gives one part and the
empty text gives one empty part. -/
def splitDots : List Char → List (List Char)
  | [] => [[]]
  | c :: rest =>
    match splitDots rest with
    | [] => [[]]
    | w :: ws => if c = '.' then [] :: w :: ws else (c :: w) :: ws

/-- ThriveDB.__contains__: when the name holds a dot, split it into
schema and table and strip quotes from both, else use the main schema;
then count matching rows of that schema catalogue. The model holds the
single schema main, so a query against another schema is none, as is a
name with several dots, which makes the Python tuple unpacking raise. -/
def ThriveDB.contains_table (s : DBState) (table : String) : Option Bool :=
  match splitDots table.toList with
  | [tbl] =>
    some (s.table_names.countP (fun n => n == String.mk (stripDQuotesL tbl)) == 1)
  | [schema, tbl] =>
    if String.mk (stripDQuotesL schema) == "main" then
      some (s.table_names.countP (fun n => n == String.mk (stripDQuotesL tbl)) == 1)
    else
      none
  | _ => none

/-- ThriveDB.list: the name column of sqlite_master for every table. -/
def ThriveDB.list (s : DBState) : List String :=
  s.table_names

/-- ThriveDB.db_version: the value of the metadata row whose key is
version; fetchone on an empty result makes the subscript raise, hence
Option. -/
def ThriveDB.db_version (s : DBState) : Option String :=
  (s.metadata.find? (fun r => r.key == "version")).map (fun r => r.value)

/-- ThriveDB.get_category_id: SELECT id FROM categories WHERE name = ?
followed by fetchone()[0]. -/
def ThriveDB.get_category_id (s : DBState) (category : String) : Option Nat :=
  (s.categories.find? (fun r => r.name == category)).map (fun r => r.id)

/-- ThriveDB.get_organization_id: SELECT id FROM organizations WHERE
name = ? followed by fetchone()[0]. -/
def ThriveDB.get_organization_id (s : DBState) (organization : String) : Option Nat :=
  (s.organizations.find? (fun r => r.name == organization)).map (fun r => r.id)

/-- ThriveDB.get_topic_id: SELECT id FROM topics WHERE name = ? followed
by fetchone()[0]. -/
def ThriveDB.get_topic_id (s : DBState) (topic : String) : Option Nat :=
  (s.topics.find? (fun r => r.name == topic)).map (fun r => r.id)

/-- ThriveDB.get_repo_id: the first argument is either the full
organization/name string, or just the organization with the name given
separately, in which case they are joined with a slash. -/
def ThriveDB.get_repo_id (s : DBState) (full_name : String) (name : Option String) :
    Option Nat :=
  let full_name := match name with
    | some n => full_name ++ "/" ++ n
    | none => full_name
  (s.repos.find? (fun r => r.full_name == full_name)).map (fun r => r.id)

/-- ThriveDB.organization_exists: SELECT COUNT(*) compared against 0. -/
def ThriveDB.organization_exists (s : DBState) (name : String) : Bool :=
  (s.organizations.countP (fun r => r.name == name)) != 0

/-- ThriveDB.repo_exists, with the same name-combination rule as
get_repo_id. -/
def ThriveDB.repo_exists (s : DBState) (full_name : String) (name : Option String) : Bool :=
  let full_name := match name with
    | some n => full_name ++ "/" ++ n
    | none => full_name
  (s.repos.countP (fun r => r.full_name == full_name)) != 0

/-- ThriveDB.topic_exists: SELECT COUNT(*) compared against 0. -/
def ThriveDB.topic_exists (s : DBState) (topic : String) : Bool :=
  (s.topics.countP (fun r => r.name == topic)) != 0

/-- The first argument of get_repo_topics: either the numeric repo id or
the full_name string (Python dispatches on isinstance int). -/
inductive RepoKey where
  | id : Nat → RepoKey
  | str : String → RepoKey
deriving DecidableEq

/-- A decision procedure for the lexicographic order on strings that the
kernel can evaluate, going through the character lists (the default
instance hides behind the irreducible String.ltb). -/
def strLeDec : DecidableRel (fun a b : String => a ≤ b) :=
  fun a b => decidable_of_iff (¬ b.toList < a.toList) (not_congr String.lt_iff_toList_lt).symm

/-- The row multiset of SELECT t.name FROM topics t, repos_topics rt
WHERE rt.repo = rid AND t.id = rt.topic: one name per matching pair. -/
def topicNamesOfRepoId (s : DBState) (rid : Nat) : List String :=
  s.topics.flatMap (fun t =>
    (s.repos_topics.filter (fun rt => rt.repo == rid && t.id == rt.topic)).map
      (fun _ => t.name))

/-- ThriveDB.get_repo_topics: for a numeric id, join repos_topics with
topics; for a (possibly two-part) name, additionally join repos on
full_name; the fetched names are returned through Python sorted, modelled
by insertion sort under the lexicographic order on strings. -/
def ThriveDB.get_repo_topics (s : DBState) (full_name : RepoKey) (name : Option String) :
    List String :=
  let rows := match full_name with
    | .id rid => topicNamesOfRepoId s rid
    | .str fn =>
      let fn := match name with
        | some n => fn ++ "/" ++ n
        | none => fn
      s.repos.flatMap (fun r =>
        if r.full_name == fn then topicNamesOfRepoId s r.id else [])
  @List.insertionSort String (fun a b => a ≤ b) strLeDec rows

/-- The next rowid an INTEGER PRIMARY KEY column assigns: one more than
the largest id in the table. -/
def nextNamedId (rows : List NamedRow) : Nat :=
  rows.foldr (fun r m => max r.id m) 0 + 1

/-- Modelled from the spec: _Table.add_attribute (the class _Table of
src/thrivescraper/table.py is not among the given sources) issues the
column-creation statement, creating the table on its first column. The
claims under proof never read column descriptors, so only the creation of
the table -- the new sqlite_master row -- is recorded here, standing for
the whole add_attribute block that _initialize runs for one table. -/
def DBState.createTable (s : DBState) (name : String) : DBState :=
  { s with table_names := s.table_names ++ [name] }

/-- Modelled from the spec: _Table.append on the metadata table inserts
one key/value row (the table has a string primary key, so no integer id
is assigned). -/
def DBState.appendMetadata (s : DBState) (key value : String) : DBState :=
  { s with metadata := s.metadata ++ [⟨key, value⟩] }

/-- Modelled from the spec: _Table.append on the categories table inserts
one row and returns the newly assigned integer primary key. -/
def DBState.appendCategory (s : DBState) (name : String) : DBState × Nat :=
  let i := nextNamedId s.categories
  ({ s with categories := s.categories ++ [⟨i, name⟩] }, i)

/-- Modelled from the spec: _Table.append on the organizations table. -/
def DBState.appendOrganization (s : DBState) (name : String) : DBState × Nat :=
  let i := nextNamedId s.organizations
  ({ s with organizations := s.organizations ++ [⟨i, name⟩] }, i)

/-- Modelled from the spec: _Table.append on the topics table. -/
def DBState.appendTopic (s : DBState) (name : String) : DBState × Nat :=
  let i := nextNamedId s.topics
  ({ s with topics := s.topics ++ [⟨i, name⟩] }, i)

/-- Modelled from the spec: _Table.append on the repos table, taking the
column values ThriveScraper.mine_topics supplies; archived is left unset
and takes NULL. The new integer primary key is returned. -/
def DBState.appendRepo (s : DBState) (active : Int) (category : Nat) (full_name : String)
    (organization : Nat) (name : String) (created_at : Int) (default_branch : String)
    (description : Option String) (homepage : Option String) (language : Option String)
    (license : Option String) (node_id : String) (pushed_at : Int) (updated_at : Int) :
    DBState × Nat :=
  let i := (s.repos.foldr (fun r m => max r.id m) 0) + 1
  ({ s with repos := s.repos ++ [⟨i, active, full_name, organization, name, none, category,
      created_at, default_branch, description, homepage, language, license, node_id,
      pushed_at, updated_at⟩] }, i)

/-- Modelled from the spec: _Table.append on the repos_topics join table,
which has no integer primary key, so nothing is returned. -/
def DBState.appendRepoTopic (s : DBState) (repo topic : Nat) : DBState :=
  { s with repos_topics := s.repos_topics ++ [⟨repo, topic⟩] }

/-- ThriveDB._initialize: if the metadata table exists the database is
already initialized and nothing happens; otherwise every schema table is
created in dependency order, the version row is written, and the twelve
category names are seeded. The commented-out data table of the source is
not created. -/
def ThriveDB.initialize_db (s : DBState) : DBState :=
  if ThriveDB.contains_table s "metadata" = some true then s
  else
    let s := s.createTable "metadata"
    let s := s.appendMetadata "version" "1.0"
    let s := s.createTable "organizations"
    let s := s.createTable "categories"
    let s := (s.appendCategory "none").1
    let s := (s.appendCategory "atomistic chemical ml").1
    let s := (s.appendCategory "atomistic materials ml").1
    let s := (s.appendCategory "atomistic materials").1
    let s := (s.appendCategory "atomistic molecular").1
    let s := (s.appendCategory "chemical ml").1
    let s := (s.appendCategory "computational mechanical").1
    let s := (s.appendCategory "experimental analysis").1
    let s := (s.appendCategory "granular simulation").1
    let s := (s.appendCategory "materials ml").1
    let s := (s.appendCategory "mesoscale materials ml").1
    let s := (s.appendCategory "mesoscale materials").1
    let s := s.createTable "repos"
    let s := s.createTable "citations"
    let s := s.createTable "contributors"
    let s := s.createTable "topics"
    let s := s.createTable "repos_topics"
    let s := s.createTable "commits"
    let s := s.createTable "repos_commits"
    s

/-- One record of the mapping the external search capability returns,
keeping the fields mine_topics reads after the owner and url-bearing keys
are stripped; license holds the name of the nested license object, or
none when that object is null. -/
structure RepoItem where
  full_name : String
  name : String
  organization : String
  created_at : String
  default_branch : String
  description : Option String
  homepage : Option String
  language : Option String
  license : Option String
  node_id : String
  pushed_at : String
  updated_at : String
  topics : List String
deriving DecidableEq

/-- The topic-id resolution inside the mining loop: an existing topic row
is looked up, a missing one is appended. The lookup after a positive
topic_exists check cannot miss, but the miss would be a raised subscript
in Python, hence the Option. -/
def resolveTopicId (s : DBState) (t : String) : Option (DBState × Nat) :=
  if ThriveDB.topic_exists s t then
    match ThriveDB.get_topic_id s t with
    | some topic_id => some (s, topic_id)
    | none => none
  else
    some (s.appendTopic t)

/-- One iteration of the for loop over the topics of one record: a topic
already in the previously fetched association list is skipped, any other
is resolved and a join row is appended. -/
def addTopicStep (repo_id : Nat) (previous : List String) (s : DBState) (t : String) :
    Option DBState :=
  if previous.contains t then some s
  else
    match resolveTopicId s t with
    | some (s, topic_id) => some (s.appendRepoTopic repo_id topic_id)
    | none => none

/-- The whole for loop over the topics of one record. -/
def addTopics (repo_id : Nat) (previous : List String) (s : DBState) (ts : List String) :
    Option DBState :=
  match ts with
  | [] => some s
  | t :: rest =>
    match addTopicStep repo_id previous s t with
    | some s => addTopics repo_id previous s rest
    | none => none

/-- The row insertion of the mining loop once the organization id is in
hand: resolve it, then append the repo row with category fixed to the
seeded none category and the mapped attributes; the license field of the
record already carries the name resolved from the nested license object
(or none for a null one), and tsf stands for util.iso_to_timestamp, kept
abstract since its value never matters here. -/
def insertRepoRow (tsf : String → Int) (category_id : Nat) (s : DBState) (item : RepoItem) :
    Option (DBState × Bool) :=
  match ThriveDB.get_organization_id s item.organization with
  | none => none
  | some organization_id =>
    some ((s.appendRepo 0 category_id item.full_name organization_id item.name
      (tsf item.created_at) item.default_branch item.description item.homepage
      item.language item.license item.node_id (tsf item.pushed_at)
      (tsf item.updated_at)).1, true)

/-- The first half of the loop body of ThriveScraper.mine_topics: when
the full_name is already present nothing is inserted, otherwise the
organization row is created if missing and the repo row appended. The
returned flag tells whether a new repo row was added. -/
def insertRepoStep (tsf : String → Int) (category_id : Nat) (s : DBState) (item : RepoItem) :
    Option (DBState × Bool) :=
  if ThriveDB.repo_exists s item.full_name none then some (s, false)
  else
    insertRepoRow tsf category_id
      (if ThriveDB.organization_exists s item.organization then s
       else (s.appendOrganization item.organization).1) item

/-- The whole body of the for loop over the records of one search result
in ThriveScraper.mine_topics: insert the repo row when its full_name is
absent, then resolve the repo id, fetch its current topics and add the
missing associations. -/
def processItem (tsf : String → Int) (category_id : Nat) (s : DBState) (item : RepoItem) :
    Option (DBState × Bool) :=
  match insertRepoStep tsf category_id s item with
  | none => none
  | some (s, added) =>
    match ThriveDB.get_repo_id s item.full_name none with
    | none => none
    | some repo_id =>
      let previous := ThriveDB.get_repo_topics s (.id repo_id) none
      match addTopics repo_id previous s item.topics with
      | none => none
      | some s => some (s, added)

/-- The for loop over the records of one search result, counting the
newly added repos of this topic query. -/
def mineItems (tsf : String → Int) (category_id : Nat) (s : DBState)
    (items : List RepoItem) (n_added : Nat) : Option (DBState × Nat) :=
  match items with
  | [] => some (s, n_added)
  | item :: rest =>
    match processItem tsf category_id s item with
    | some (s, added) =>
      mineItems tsf category_id s rest (n_added + if added then 1 else 0)
    | none => none

/-- The outer for loop over the topic queries, collecting the per-topic
newly-added counts that the source prints per topic. -/
def mineTopicsLoop (tsf : String → Int) (category_id : Nat) (s : DBState)
    (data : List (List RepoItem)) (counts : List Nat) : Option (DBState × List Nat) :=
  match data with
  | [] => some (s, counts)
  | items :: rest =>
    match mineItems tsf category_id s items 0 with
    | some (s, n_added) => mineTopicsLoop tsf category_id s rest (counts ++ [n_added])
    | none => none

/-- ThriveScraper.mine_topics, with the external search capability
replaced by its results: one list of records per mined topic, in the
iteration order of the returned mapping. The id of the seeded category
none is resolved once before the loops, as in the source. -/
def ThriveScraper.mine_topics (tsf : String → Int) (s : DBState)
    (data : List (List RepoItem)) : Option (DBState × List Nat) :=
  match ThriveDB.get_category_id s "none" with
  | none => none
  | some category_id => mineTopicsLoop tsf category_id s data []

/-- The per-handle cache of Table objects behind ThriveDB.__getitem__:
the mapping from table name to the cached instance, with object identity
modelled by the token the instance was created with, and the counter
supplying fresh tokens. -/
structure HandleState where
  items : List (String × Nat)
  next_obj : Nat
deriving DecidableEq

/-- ThriveDB.__getitem__: return the cached Table instance for the key,
creating and caching a fresh one on first access. -/
def ThriveDB.getitem (h : HandleState) (key : String) : Nat × HandleState :=
  match h.items.lookup key with
  | some t => (t, h)
  | none => (h.next_obj, ⟨h.items ++ [(key, h.next_obj)], h.next_obj + 1⟩)

/-- A sequence of mapping accesses on the same handle, keeping only the
evolving cache. -/
def ThriveDB.getitems (h : HandleState) (keys : List String) : HandleState :=
  keys.foldl (fun h k => (ThriveDB.getitem h k).2) h

/-- The connection owned by a handle: the state the open transaction
sees, and the state made durable by the last commit. -/
structure Connection where
  current : DBState
  durable : DBState
deriving DecidableEq

/-- sqlite3 Connection.commit: the pending writes become durable. -/
def Connection.commit (c : Connection) : Connection :=
  { c with durable := c.current }

/-- ThriveDB.__enter__: commits, then hands the handle back. -/
def ThriveDB.enter (c : Connection) : Connection :=
  c.commit

/-- ThriveDB.__exit__: commits only when no exception type is in
progress; the exception type is modelled by its name. -/
def ThriveDB.exit (etype : Option String) (c : Connection) : Connection :=
  match etype with
  | none => c.commit
  | some _ => c

/-- The table names a fresh bootstrap creates, in creation order. -/
def schemaTableNames : List String :=
  ["metadata", "organizations", "categories", "repos", "citations", "contributors",
   "topics", "repos_topics", "commits", "repos_commits"]

/-- The twelve category names seeded at bootstrap, in insertion order. -/
def seedCategoryNames : List String :=
  ["none", "atomistic chemical ml", "atomistic materials ml", "atomistic materials",
   "atomistic molecular", "chemical ml", "computational mechanical",
   "experimental analysis", "granular simulation", "materials ml",
   "mesoscale materials ml", "mesoscale materials"]

/-- A reachable-by-schema state whose join table carries the same
association row twice: nothing in the schema forbids it, only the
application-level existence check. -/
def dupJoinState : DBState :=
  { DBState.empty with topics := [⟨1, "a"⟩], repos_topics := [⟨5, 1⟩, ⟨5, 1⟩] }

/-- A small store used to exercise the lookup helpers at concrete
inputs. -/
def exLookupState : DBState :=
  { DBState.empty with
    organizations := [⟨1, "acme"⟩],
    categories := [⟨1, "none"⟩],
    repos := [⟨1, 0, "acme/widget", 1, "widget", none, 1, 0, "main", none, none, none,
      none, "X", 0, 0⟩],
    topics := [⟨1, "materials"⟩] }

/-- The record of the end-to-end scenario of the spec, as the search
capability returns it for the topic materials. -/
def wItem : RepoItem :=
  { full_name := "acme/widget", name := "widget", organization := "acme",
    created_at := "2020-01-01T00:00:00+00:00", default_branch := "main",
    description := some "d", homepage := some "", language := some "Python",
    license := some "MIT", node_id := "X",
    pushed_at := "2020-01-02T00:00:00+00:00", updated_at := "2020-01-03T00:00:00+00:00",
    topics := ["materials", "ml"] }

/-- A freshly bootstrapped store. -/
def wFresh : DBState := ThriveDB.initialize_db DBState.empty

/-- The state and per-topic counts after mining the scenario record into
the fresh store once. -/
def wRun1 : DBState × List Nat :=
  (ThriveScraper.mine_topics (fun _ => 0) wFresh [[wItem]]).getD (DBState.empty, [])

/-- One state extends another when every table row of the first is still
present, in place, in the second -- the second only appends rows to the
four tables the mining path writes and leaves every other table alone.
This is the frame relation the reconciler respects. -/
structure DBExtends (s s2 : DBState) : Prop where
  organizations : ∃ d, s2.organizations = s.organizations ++ d
  topics : ∃ d, s2.topics = s.topics ++ d
  repos : ∃ d, s2.repos = s.repos ++ d
  repos_topics : ∃ d, s2.repos_topics = s.repos_topics ++ d
  metadata : s2.metadata = s.metadata
  categories : s2.categories = s.categories
  table_names : s2.table_names = s.table_names
  citations : s2.citations = s.citations
  contributors : s2.contributors = s.contributors
  commits : s2.commits = s.commits
  repos_commits : s2.repos_commits = s.repos_commits

/-- A record has been reconciled into the state: its repo row exists, its
id resolves, and every topic of the record is associated with that id. -/
def ItemDone (s : DBState) (item : RepoItem) : Prop :=
  ThriveDB.repo_exists s item.full_name none = true ∧
  ∃ rid, ThriveDB.get_repo_id s item.full_name none = some rid ∧
    ∀ t ∈ item.topics, t ∈ topicNamesOfRepoId s rid

lemma find?_eq_of_filter_singleton {α : Type} {p : α → Bool} {l : List α} {a : α}
    (h : l.filter p = [a]) : l.find? p = some a := by
  induction l with
  | nil => simp at h
  | cons x xs ih =>
    by_cases hx : p x
    · rw [List.filter_cons_of_pos hx] at h
      injection h with h1 h2
      subst h1
      simp [List.find?_cons_of_pos, hx]
    · rw [List.filter_cons_of_neg hx] at h
      simp [List.find?_cons_of_neg, hx, ih h]

lemma find?_eq_none_of_countP_zero {α : Type} {p : α → Bool} {l : List α}
    (h : l.countP p = 0) : l.find? p = none :=
  List.find?_eq_none.2 fun x hx hpx => (List.countP_eq_zero.1 h x hx) hpx

lemma countP_ne_zero_iff_find?_isSome {α : Type} {p : α → Bool} {l : List α} :
    ((l.countP p != 0) = true) ↔ (l.find? p).isSome = true := by
  rw [List.find?_isSome]
  simp only [bne_iff_ne, ne_eq, List.countP_eq_zero]
  push_neg
  constructor
  · rintro ⟨x, hx, hpx⟩
    exact ⟨x, hx, hpx⟩
  · rintro ⟨x, hx, hpx⟩
    exact ⟨x, hx, hpx⟩

/-- Claim C4: schema bootstrap is idempotent. When the metadata table is
already present, opening a connection runs _initialize and it returns at
once: the state is unchanged, so no table is created, no category row is
seeded and no metadata row is written. -/
theorem initialize_idempotent (s : DBState)
    (h : ThriveDB.contains_table s "metadata" = some true) :
    ThriveDB.initialize_db s = s := by
  rw [ThriveDB.initialize_db, if_pos h]

/-- Witness for claim C4 at a concrete store: bootstrapping a freshly
bootstrapped store changes nothing. -/
theorem initialize_idempotent_witness :
    ThriveDB.initialize_db (ThriveDB.initialize_db DBState.empty) =
      ThriveDB.initialize_db DBState.empty :=
  initialize_idempotent (ThriveDB.initialize_db DBState.empty) (by decide)

/-- Claim C1, counterexample: a freshly bootstrapped store does not list
eleven tables; _initialize creates ten (the data table of the source is
commented out), so the claimed count is false on the code. -/
theorem fresh_store_not_eleven_tables :
    ¬ ((ThriveDB.list (ThriveDB.initialize_db DBState.empty)).length = 11) := by
  decide

/-- Claim C1, amended: for the freshly bootstrapped store, db_version is
the string 1.0, the categories table holds exactly the twelve seeded
names, and list() returns all ten schema-defined tables. -/
theorem fresh_store_bootstrap_contents :
    ThriveDB.db_version (ThriveDB.initialize_db DBState.empty) = some "1.0" ∧
    (ThriveDB.initialize_db DBState.empty).categories.map (fun r => r.name) =
      seedCategoryNames ∧
    seedCategoryNames.length = 12 ∧
    ThriveDB.list (ThriveDB.initialize_db DBState.empty) = schemaTableNames ∧
    schemaTableNames.length = 10 := by
  refine ⟨rfl, rfl, rfl, rfl, rfl⟩

/-- Claim C6: passing the combined organization/name string is equivalent
to passing organization and name separately, for get_repo_id, repo_exists
and get_repo_topics alike. -/
theorem combined_name_equivalence (s : DBState) (org n : String) :
    ThriveDB.get_repo_id s (org ++ "/" ++ n) none = ThriveDB.get_repo_id s org (some n) ∧
    ThriveDB.repo_exists s (org ++ "/" ++ n) none = ThriveDB.repo_exists s org (some n) ∧
    ThriveDB.get_repo_topics s (.str (org ++ "/" ++ n)) none =
      ThriveDB.get_repo_topics s (.str org) (some n) :=
  ⟨rfl, rfl, rfl⟩

/-- Claim C7: under the scoped-use contract, a normal exit (no exception
type in progress) commits the pending writes, and an exit with an
in-progress exception leaves the connection untouched, so nothing extra
is committed and the changes stay pending. -/
theorem scoped_exit_semantics (c : Connection) (e : String) :
    (ThriveDB.exit none c).durable = c.current ∧
    ThriveDB.exit (some e) c = c ∧
    (ThriveDB.exit (some e) c).durable = c.durable :=
  ⟨rfl, rfl, rfl⟩

lemma nodup_of_length_le_one {α : Type} : ∀ {l : List α}, l.length ≤ 1 → l.Nodup
  | [], _ => List.nodup_nil
  | [a], _ => List.nodup_singleton a
  | _ :: _ :: _, h => by simp at h

lemma filter_pair_length_le_one {l : List RTRow} (h : l.Nodup) (rid tid : Nat) :
    (l.filter (fun rt => rt.repo == rid && tid == rt.topic)).length ≤ 1 := by
  have hcongr : l.filter (fun rt => rt.repo == rid && tid == rt.topic) =
      l.filter (fun rt => rt == (⟨rid, tid⟩ : RTRow)) := by
    refine List.filter_congr fun rt _ => ?_
    cases rt with
    | mk rrepo rtopic =>
      rw [Bool.eq_iff_iff]
      simp only [Bool.and_eq_true, beq_iff_eq, RTRow.mk.injEq]
      constructor
      · rintro ⟨ha, hb⟩
        exact ⟨ha, hb.symm⟩
      · rintro ⟨ha, hb⟩
        exact ⟨ha, hb.symm⟩
  rw [hcongr]
  calc (l.filter (fun rt => rt == (⟨rid, tid⟩ : RTRow))).length
      = l.count (⟨rid, tid⟩ : RTRow) := by
        rw [List.count, List.countP_eq_length_filter]
    _ ≤ 1 := List.nodup_iff_count_le_one.1 h _

lemma nodup_topicNamesOfRepoId (s : DBState) (rid : Nat)
    (h1 : (s.topics.map NamedRow.name).Nodup) (h2 : s.repos_topics.Nodup) :
    (topicNamesOfRepoId s rid).Nodup := by
  rw [topicNamesOfRepoId, List.nodup_flatMap]
  constructor
  · intro t _
    refine nodup_of_length_le_one ?_
    rw [List.length_map]
    exact filter_pair_length_le_one h2 rid t.id
  · have hpw : s.topics.Pairwise (fun a b => a.name ≠ b.name) := List.pairwise_map.1 h1
    refine hpw.imp fun {a b} hne => ?_
    intro x hxa hxb
    simp only [List.mem_map] at hxa hxb
    obtain ⟨_, _, rfl⟩ := hxa
    obtain ⟨_, _, hx⟩ := hxb
    exact hne hx.symm

lemma nodup_repoNameJoin (s : DBState) (fn : String)
    (h1 : (s.topics.map NamedRow.name).Nodup) (h2 : s.repos_topics.Nodup)
    (h3 : (s.repos.map RepoRow.full_name).Nodup) :
    (s.repos.flatMap (fun r =>
      if r.full_name == fn then topicNamesOfRepoId s r.id else [])).Nodup := by
  rw [List.nodup_flatMap]
  constructor
  · intro r _
    by_cases h : r.full_name == fn
    · simpa [h] using nodup_topicNamesOfRepoId s r.id h1 h2
    · simp [h]
  · have hpw : s.repos.Pairwise (fun a b => a.full_name ≠ b.full_name) :=
      List.pairwise_map.1 h3
    refine hpw.imp fun {a b} hne => ?_
    intro x hxa hxb
    by_cases ha : a.full_name == fn
    · by_cases hb : b.full_name == fn
      · exact hne (by rw [beq_iff_eq] at ha hb; rw [ha, hb])
      · simp [hb] at hxb
    · simp [ha] at hxa

/-- Claim C3, counterexample: the schema does not forbid a duplicated
association row, and on a state holding the pair twice get_repo_topics
returns the topic name twice, so the no-duplicates part of the claim
fails on the code for this database state. -/
theorem get_repo_topics_duplicates_possible :
    ¬ (ThriveDB.get_repo_topics dupJoinState (.id 5) none).Nodup := by
  decide

/-- Claim C3, amended: get_repo_topics always returns a list sorted in
the lexicographic string order, and the list is furthermore free of
duplicates whenever the topic names are pairwise distinct (which the
unique index on topics.name enforces), the join table holds no duplicated
association row (which only the application-level check guards) and the
repo full names are pairwise distinct (which their unique index
enforces). -/
theorem get_repo_topics_sorted_and_nodup (s : DBState) (k : RepoKey) (nm : Option String) :
    List.Sorted (fun a b : String => a ≤ b) (ThriveDB.get_repo_topics s k nm) ∧
    ((s.topics.map NamedRow.name).Nodup → s.repos_topics.Nodup →
      (s.repos.map RepoRow.full_name).Nodup →
      (ThriveDB.get_repo_topics s k nm).Nodup) := by
  constructor
  · exact @List.sorted_insertionSort String (fun a b => a ≤ b) strLeDec
      inferInstance inferInstance _
  · intro h1 h2 h3
    cases k with
    | id rid =>
      exact ((@List.perm_insertionSort String (fun a b => a ≤ b) strLeDec _).nodup_iff).2
        (nodup_topicNamesOfRepoId s rid h1 h2)
    | str fn =>
      exact ((@List.perm_insertionSort String (fun a b => a ≤ b) strLeDec _).nodup_iff).2
        (nodup_repoNameJoin s _ h1 h2 h3)

lemma isSome_map {α β : Type} (f : α → β) (o : Option α) :
    (o.map f).isSome = o.isSome := by
  cases o <;> rfl

lemma countP_bne_zero_eq_isSome {α : Type} (p : α → Bool) (l : List α) :
    (l.countP p != 0) = (l.find? p).isSome := by
  rw [Bool.eq_iff_iff]
  exact countP_ne_zero_iff_find?_isSome

/-- Claim C5: each id-lookup helper returns the unique matching row id
when exactly one row matches and fails -- returns nothing usable, the
Python subscript on None raising -- when no row matches; and success of
the lookup coincides exactly with the matching exists predicate, which is
the precondition callers must establish. -/
theorem id_lookup_helpers_spec (s : DBState) (nm : String) (c o t : NamedRow) (r : RepoRow) :
    (s.categories.filter (fun x => x.name == nm) = [c] →
      ThriveDB.get_category_id s nm = some c.id) ∧
    (s.categories.countP (fun x => x.name == nm) = 0 →
      ThriveDB.get_category_id s nm = none) ∧
    (s.organizations.filter (fun x => x.name == nm) = [o] →
      ThriveDB.get_organization_id s nm = some o.id) ∧
    (s.organizations.countP (fun x => x.name == nm) = 0 →
      ThriveDB.get_organization_id s nm = none) ∧
    (s.repos.filter (fun x => x.full_name == nm) = [r] →
      ThriveDB.get_repo_id s nm none = some r.id) ∧
    (s.repos.countP (fun x => x.full_name == nm) = 0 →
      ThriveDB.get_repo_id s nm none = none) ∧
    (s.topics.filter (fun x => x.name == nm) = [t] →
      ThriveDB.get_topic_id s nm = some t.id) ∧
    (s.topics.countP (fun x => x.name == nm) = 0 →
      ThriveDB.get_topic_id s nm = none) ∧
    (ThriveDB.organization_exists s nm = (ThriveDB.get_organization_id s nm).isSome) ∧
    (ThriveDB.repo_exists s nm none = (ThriveDB.get_repo_id s nm none).isSome) ∧
    (ThriveDB.topic_exists s nm = (ThriveDB.get_topic_id s nm).isSome) := by
  refine ⟨?_, ?_, ?_, ?_, ?_, ?_, ?_, ?_, ?_, ?_, ?_⟩
  · intro h
    rw [ThriveDB.get_category_id, find?_eq_of_filter_singleton h]
    rfl
  · intro h
    rw [ThriveDB.get_category_id, find?_eq_none_of_countP_zero h]
    rfl
  · intro h
    rw [ThriveDB.get_organization_id, find?_eq_of_filter_singleton h]
    rfl
  · intro h
    rw [ThriveDB.get_organization_id, find?_eq_none_of_countP_zero h]
    rfl
  · intro h
    rw [ThriveDB.get_repo_id, find?_eq_of_filter_singleton h]
    rfl
  · intro h
    rw [ThriveDB.get_repo_id, find?_eq_none_of_countP_zero h]
    rfl
  · intro h
    rw [ThriveDB.get_topic_id, find?_eq_of_filter_singleton h]
    rfl
  · intro h
    rw [ThriveDB.get_topic_id, find?_eq_none_of_countP_zero h]
    rfl
  · rw [ThriveDB.organization_exists, ThriveDB.get_organization_id, isSome_map]
    exact countP_bne_zero_eq_isSome _ _
  · rw [ThriveDB.repo_exists, ThriveDB.get_repo_id, isSome_map]
    exact countP_bne_zero_eq_isSome _ _
  · rw [ThriveDB.topic_exists, ThriveDB.get_topic_id, isSome_map]
    exact countP_bne_zero_eq_isSome _ _

lemma lookup_append_left {l l2 : List (String × Nat)} {k : String} {v : Nat}
    (h : l.lookup k = some v) : (l ++ l2).lookup k = some v := by
  induction l with
  | nil => simp [List.lookup] at h
  | cons x xs ih =>
    cases x with
    | mk a b =>
      rw [List.cons_append]
      rw [List.lookup] at h ⊢
      by_cases hk : k == a
      · simpa [hk] using h
      · simp only [Bool.not_eq_true] at hk
        rw [hk] at h ⊢
        exact ih h

lemma lookup_append_new {l : List (String × Nat)} {k : String} (v : Nat)
    (h : l.lookup k = none) : (l ++ [(k, v)]).lookup k = some v := by
  induction l with
  | nil => simp [List.lookup]
  | cons x xs ih =>
    cases x with
    | mk a b =>
      rw [List.cons_append]
      rw [List.lookup] at h ⊢
      by_cases hk : k == a
      · rw [hk] at h
        exact absurd h (by simp)
      · simp only [Bool.not_eq_true] at hk
        rw [hk] at h ⊢
        exact ih h

lemma getitem_lookup_self (h : HandleState) (k : String) :
    ((ThriveDB.getitem h k).2).items.lookup k = some (ThriveDB.getitem h k).1 := by
  rw [ThriveDB.getitem]
  cases hl : h.items.lookup k with
  | some t => simpa using hl
  | none => simpa using lookup_append_new h.next_obj hl

lemma getitem_keeps_lookup (h : HandleState) (q k : String) (v : Nat)
    (hl : h.items.lookup k = some v) :
    ((ThriveDB.getitem h q).2).items.lookup k = some v := by
  rw [ThriveDB.getitem]
  cases hq : h.items.lookup q with
  | some t => simpa using hl
  | none => simpa using lookup_append_left hl

lemma getitems_keep_lookup (ks : List String) (h : HandleState) (k : String) (v : Nat)
    (hl : h.items.lookup k = some v) :
    (ThriveDB.getitems h ks).items.lookup k = some v := by
  induction ks generalizing h with
  | nil => exact hl
  | cons q qs ih =>
    rw [ThriveDB.getitems, List.foldl_cons]
    exact ih _ (getitem_keeps_lookup h q k v hl)

lemma getitem_of_lookup (h : HandleState) (k : String) (v : Nat)
    (hl : h.items.lookup k = some v) : ThriveDB.getitem h k = (v, h) := by
  rw [ThriveDB.getitem, hl]

/-- Claim C9: repeated mapping access for the same table name returns the
identical Table instance. A first access -- one with no cached entry --
creates a fresh instance and stores it; and after that first access every
later access for that name, regardless of the other accesses made in
between, returns exactly the instance the first access produced. -/
theorem getitem_single_instance (h : HandleState) (k : String) (ks : List String) :
    (ThriveDB.getitem (ThriveDB.getitems (ThriveDB.getitem h k).2 ks) k).1 =
      (ThriveDB.getitem h k).1 ∧
    (h.items.lookup k = none →
      (ThriveDB.getitem h k).1 = h.next_obj ∧
      ((ThriveDB.getitem h k).2).items = h.items ++ [(k, h.next_obj)]) := by
  constructor
  · have h1 := getitem_lookup_self h k
    have h2 := getitems_keep_lookup ks _ k _ h1
    rw [getitem_of_lookup _ k _ h2]
  · intro hl
    rw [ThriveDB.getitem, hl]
    exact ⟨rfl, rfl⟩

/-- Claim C10: an identifier matching no repository makes get_repo_topics
return the empty list rather than fail, both for an unknown full_name and
for a numeric id with no association rows, while get_repo_id on the same
unknown full_name finds nothing to subscript -- the Python raises. -/
theorem unknown_repo_lookups (s : DBState) (fn : String) (rid : Nat)
    (h1 : s.repos.countP (fun r => r.full_name == fn) = 0)
    (h2 : s.repos_topics.countP (fun rt => rt.repo == rid) = 0) :
    ThriveDB.get_repo_topics s (.str fn) none = [] ∧
    ThriveDB.get_repo_id s fn none = none ∧
    ThriveDB.get_repo_topics s (.id rid) none = [] := by
  have hrepo : ∀ r ∈ s.repos, ¬ (r.full_name == fn) = true := List.countP_eq_zero.1 h1
  have hrt : ∀ rt ∈ s.repos_topics, ¬ (rt.repo == rid) = true := List.countP_eq_zero.1 h2
  have hnames : topicNamesOfRepoId s rid = [] := by
    rw [topicNamesOfRepoId]
    rw [List.flatMap_eq_nil_iff]
    intro t ht
    have : s.repos_topics.filter (fun rt => rt.repo == rid && t.id == rt.topic) = [] := by
      rw [List.filter_eq_nil_iff]
      intro rt hrtmem
      simp only [Bool.and_eq_true, not_and]
      intro hr
      exact absurd hr (hrt rt hrtmem)
    rw [this, List.map_nil]
  refine ⟨?_, ?_, ?_⟩
  · rw [ThriveDB.get_repo_topics]
    have : s.repos.flatMap (fun r =>
        if r.full_name == fn then topicNamesOfRepoId s r.id else []) = [] := by
      rw [List.flatMap_eq_nil_iff]
      intro r hr
      rw [if_neg (hrepo r hr)]
    rw [this]
    rfl
  · rw [ThriveDB.get_repo_id, find?_eq_none_of_countP_zero h1]
    rfl
  · rw [ThriveDB.get_repo_topics, hnames]
    rfl

/-- Witness for claim C10 at concrete inputs: the scenario full_name is
unknown to the fresh store, as is the numeric id seven. -/
theorem unknown_repo_lookups_witness :
    ThriveDB.get_repo_topics wFresh (.str "acme/widget") none = [] ∧
    ThriveDB.get_repo_id wFresh "acme/widget" none = none ∧
    ThriveDB.get_repo_topics wFresh (.id 7) none = [] :=
  unknown_repo_lookups wFresh "acme/widget" 7 (by decide) (by decide)

lemma DBExtends.refl (s : DBState) : DBExtends s s :=
  ⟨⟨[], (List.append_nil _).symm⟩, ⟨[], (List.append_nil _).symm⟩, ⟨[], (List.append_nil _).symm⟩, ⟨[], (List.append_nil _).symm⟩,
   rfl, rfl, rfl, rfl, rfl, rfl, rfl⟩

lemma DBExtends.trans {s1 s2 s3 : DBState} (h12 : DBExtends s1 s2)
    (h23 : DBExtends s2 s3) : DBExtends s1 s3 := by
  obtain ⟨⟨d1, e1⟩, ⟨d2, e2⟩, ⟨d3, e3⟩, ⟨d4, e4⟩, m1, c1, t1, i1, o1, k1, r1⟩ := h12
  obtain ⟨⟨f1, g1⟩, ⟨f2, g2⟩, ⟨f3, g3⟩, ⟨f4, g4⟩, m2, c2, t2, i2, o2, k2, r2⟩ := h23
  refine ⟨⟨d1 ++ f1, ?_⟩, ⟨d2 ++ f2, ?_⟩, ⟨d3 ++ f3, ?_⟩, ⟨d4 ++ f4, ?_⟩,
    m2.trans m1, c2.trans c1, t2.trans t1, i2.trans i1, o2.trans o1,
    k2.trans k1, r2.trans r1⟩
  · rw [g1, e1, List.append_assoc]
  · rw [g2, e2, List.append_assoc]
  · rw [g3, e3, List.append_assoc]
  · rw [g4, e4, List.append_assoc]

lemma extends_appendOrganization (s : DBState) (nm : String) :
    DBExtends s (s.appendOrganization nm).1 :=
  ⟨⟨_, rfl⟩, ⟨[], (List.append_nil _).symm⟩, ⟨[], (List.append_nil _).symm⟩, ⟨[], (List.append_nil _).symm⟩,
   rfl, rfl, rfl, rfl, rfl, rfl, rfl⟩

lemma extends_appendTopic (s : DBState) (nm : String) :
    DBExtends s (s.appendTopic nm).1 :=
  ⟨⟨[], (List.append_nil _).symm⟩, ⟨_, rfl⟩, ⟨[], (List.append_nil _).symm⟩, ⟨[], (List.append_nil _).symm⟩,
   rfl, rfl, rfl, rfl, rfl, rfl, rfl⟩

lemma extends_appendRepoTopic (s : DBState) (rid tid : Nat) :
    DBExtends s (s.appendRepoTopic rid tid) :=
  ⟨⟨[], (List.append_nil _).symm⟩, ⟨[], (List.append_nil _).symm⟩, ⟨[], (List.append_nil _).symm⟩, ⟨_, rfl⟩,
   rfl, rfl, rfl, rfl, rfl, rfl, rfl⟩

lemma extends_appendRepo (s : DBState) (active : Int) (category : Nat) (full_name : String)
    (organization : Nat) (name : String) (created_at : Int) (default_branch : String)
    (description homepage language license : Option String) (node_id : String)
    (pushed_at updated_at : Int) :
    DBExtends s (s.appendRepo active category full_name organization name created_at
      default_branch description homepage language license node_id pushed_at
      updated_at).1 :=
  ⟨⟨[], (List.append_nil _).symm⟩, ⟨[], (List.append_nil _).symm⟩, ⟨_, rfl⟩, ⟨[], (List.append_nil _).symm⟩,
   rfl, rfl, rfl, rfl, rfl, rfl, rfl⟩

lemma repo_exists_mono {s s2 : DBState} (h : DBExtends s s2) {fn : String}
    (he : ThriveDB.repo_exists s fn none = true) :
    ThriveDB.repo_exists s2 fn none = true := by
  obtain ⟨d, hd⟩ := h.repos
  rw [ThriveDB.repo_exists] at he ⊢
  rw [hd, List.countP_append]
  simp only [bne_iff_ne, ne_eq] at he ⊢
  intro hz
  exact he (Nat.eq_zero_of_add_eq_zero_right hz)

lemma find?_append_left_some {α : Type} {p : α → Bool} {l l2 : List α} {a : α}
    (h : l.find? p = some a) : (l ++ l2).find? p = some a := by
  rw [List.find?_append, h]
  rfl

lemma get_repo_id_mono {s s2 : DBState} (h : DBExtends s s2) {fn : String} {i : Nat}
    (hg : ThriveDB.get_repo_id s fn none = some i) :
    ThriveDB.get_repo_id s2 fn none = some i := by
  obtain ⟨d, hd⟩ := h.repos
  rw [ThriveDB.get_repo_id] at hg ⊢
  cases hf : s.repos.find? (fun r => r.full_name == fn) with
  | none => rw [hf] at hg; exact absurd hg (by simp)
  | some r =>
    rw [hf] at hg
    rw [hd, find?_append_left_some hf]
    exact hg

lemma mem_topicNames_mono {s s2 : DBState} (h : DBExtends s s2) {rid : Nat} {t : String}
    (hm : t ∈ topicNamesOfRepoId s rid) : t ∈ topicNamesOfRepoId s2 rid := by
  obtain ⟨dt, hdt⟩ := h.topics
  obtain ⟨dr, hdr⟩ := h.repos_topics
  rw [topicNamesOfRepoId, List.mem_flatMap] at hm ⊢
  obtain ⟨trow, htrow, hmem⟩ := hm
  refine ⟨trow, by rw [hdt]; exact List.mem_append_left _ htrow, ?_⟩
  rw [List.mem_map] at hmem ⊢
  obtain ⟨rt, hrt, rfl⟩ := hmem
  refine ⟨rt, ?_, rfl⟩
  rw [List.mem_filter] at hrt ⊢
  exact ⟨by rw [hdr]; exact List.mem_append_left _ hrt.1, hrt.2⟩

lemma get_category_id_ext {s s2 : DBState} (h : DBExtends s s2) (c : String) :
    ThriveDB.get_category_id s2 c = ThriveDB.get_category_id s c := by
  rw [ThriveDB.get_category_id, ThriveDB.get_category_id, h.categories]

lemma ItemDone_mono {s s2 : DBState} {item : RepoItem} (h : DBExtends s s2)
    (hd : ItemDone s item) : ItemDone s2 item := by
  obtain ⟨he, rid, hg, hcov⟩ := hd
  exact ⟨repo_exists_mono h he, rid, get_repo_id_mono h hg,
    fun t ht => mem_topicNames_mono h (hcov t ht)⟩

lemma resolveTopicId_spec {s : DBState} {t : String} {s2 : DBState} {tid : Nat}
    (h : resolveTopicId s t = some (s2, tid)) :
    DBExtends s s2 ∧ ∃ trow : NamedRow, trow ∈ s2.topics ∧ trow.id = tid ∧ trow.name = t := by
  rw [resolveTopicId] at h
  by_cases hex : ThriveDB.topic_exists s t
  · rw [if_pos hex] at h
    cases hg : ThriveDB.get_topic_id s t with
    | none => rw [hg] at h; exact absurd h (by simp)
    | some i =>
      rw [hg, Option.some_inj, Prod.mk.injEq] at h
      obtain ⟨h1, h2⟩ := h
      subst h1
      subst h2
      rw [ThriveDB.get_topic_id] at hg
      obtain ⟨trow, hfind, hid⟩ := Option.map_eq_some'.1 hg
      refine ⟨DBExtends.refl _, trow, List.mem_of_find?_eq_some hfind, hid, ?_⟩
      simpa using List.find?_some hfind
  · rw [if_neg hex, Option.some_inj] at h
    simp only [DBState.appendTopic, Prod.mk.injEq] at h
    obtain ⟨h1, h2⟩ := h
    subst h1
    subst h2
    refine ⟨extends_appendTopic s t, ⟨nextNamedId s.topics, t⟩, ?_, rfl, rfl⟩
    exact List.mem_append_right _ (List.mem_singleton_self _)

lemma addTopicStep_spec {rid : Nat} {previous : List String} {s : DBState} {t : String}
    {s2 : DBState} (h : addTopicStep rid previous s t = some s2) :
    DBExtends s s2 ∧ (previous.contains t = false → t ∈ topicNamesOfRepoId s2 rid) := by
  rw [addTopicStep] at h
  by_cases hc : previous.contains t
  · rw [if_pos hc, Option.some_inj] at h
    subst h
    exact ⟨DBExtends.refl s, fun hf => absurd hc (by rw [hf]; exact Bool.false_ne_true)⟩
  · rw [if_neg hc] at h
    cases hr : resolveTopicId s t with
    | none => rw [hr] at h; exact absurd h (by simp)
    | some p =>
      obtain ⟨ps, pid⟩ := p
      rw [hr, Option.some_inj] at h
      subst h
      obtain ⟨hext, trow, htmem, hid, hname⟩ := resolveTopicId_spec hr
      refine ⟨hext.trans (extends_appendRepoTopic ps rid pid), fun _ => ?_⟩
      rw [topicNamesOfRepoId, List.mem_flatMap]
      refine ⟨trow, htmem, ?_⟩
      rw [List.mem_map]
      refine ⟨⟨rid, pid⟩, ?_, hname⟩
      rw [List.mem_filter]
      constructor
      · exact List.mem_append_right _ (List.mem_singleton_self _)
      · simp [hid]

lemma addTopics_spec {rid : Nat} {previous : List String} {s0 : DBState}
    (hprev : ∀ t ∈ previous, t ∈ topicNamesOfRepoId s0 rid) :
    ∀ {ts : List String} {s s2 : DBState},
      addTopics rid previous s ts = some s2 → DBExtends s0 s →
      DBExtends s s2 ∧ ∀ t ∈ ts, t ∈ topicNamesOfRepoId s2 rid := by
  intro ts
  induction ts with
  | nil =>
    intro s s2 h _
    rw [addTopics, Option.some_inj] at h
    subst h
    exact ⟨DBExtends.refl s, by simp⟩
  | cons t rest ih =>
    intro s s2 h h0
    rw [addTopics] at h
    cases hstep : addTopicStep rid previous s t with
    | none => rw [hstep] at h; exact absurd h (by simp)
    | some s1 =>
      rw [hstep] at h
      obtain ⟨hext1, hcov1⟩ := addTopicStep_spec hstep
      obtain ⟨hext2, hcov⟩ := ih h (h0.trans hext1)
      refine ⟨hext1.trans hext2, ?_⟩
      intro x hx
      rcases List.mem_cons.1 hx with rfl | hxr
      · by_cases hc : previous.contains x
        · have hxmem : x ∈ previous := List.mem_of_elem_eq_true hc
          exact mem_topicNames_mono ((h0.trans hext1).trans hext2) (hprev x hxmem)
        · have hf : previous.contains x = false := by
            simpa using hc
          exact mem_topicNames_mono hext2 (hcov1 hf)
      · exact hcov x hxr

lemma addTopics_noop {rid : Nat} {previous : List String} :
    ∀ {ts : List String} {s : DBState}, (∀ t ∈ ts, previous.contains t = true) →
      addTopics rid previous s ts = some s := by
  intro ts
  induction ts with
  | nil => intro s _; rfl
  | cons t rest ih =>
    intro s hall
    rw [addTopics, addTopicStep, if_pos (hall t (List.mem_cons_self t rest))]
    exact ih fun x hx => hall x (List.mem_cons_of_mem t hx)

lemma mem_get_repo_topics_id {s : DBState} {rid : Nat} {t : String} :
    t ∈ ThriveDB.get_repo_topics s (.id rid) none ↔ t ∈ topicNamesOfRepoId s rid := by
  rw [ThriveDB.get_repo_topics]
  exact (@List.perm_insertionSort String (fun a b => a ≤ b) strLeDec _).mem_iff

lemma insertRepoRow_spec {tsf : String → Int} {cid : Nat} {s : DBState} {item : RepoItem}
    {s2 : DBState} {added : Bool} (h : insertRepoRow tsf cid s item = some (s2, added)) :
    DBExtends s s2 ∧ ThriveDB.repo_exists s2 item.full_name none = true := by
  rw [insertRepoRow] at h
  cases ho : ThriveDB.get_organization_id s item.organization with
  | none => rw [ho] at h; exact absurd h (by simp)
  | some oid =>
    rw [ho, Option.some_inj, Prod.mk.injEq] at h
    obtain ⟨h1, -⟩ := h
    subst h1
    refine ⟨extends_appendRepo s 0 cid item.full_name oid item.name (tsf item.created_at)
      item.default_branch item.description item.homepage item.language item.license
      item.node_id (tsf item.pushed_at) (tsf item.updated_at), ?_⟩
    rw [ThriveDB.repo_exists]
    simp [DBState.appendRepo, List.countP_append, List.countP_cons]

lemma insertRepoStep_spec {tsf : String → Int} {cid : Nat} {s : DBState} {item : RepoItem}
    {s2 : DBState} {added : Bool} (h : insertRepoStep tsf cid s item = some (s2, added)) :
    DBExtends s s2 ∧ ThriveDB.repo_exists s2 item.full_name none = true := by
  rw [insertRepoStep] at h
  by_cases hex : ThriveDB.repo_exists s item.full_name none
  · rw [if_pos hex, Option.some_inj, Prod.mk.injEq] at h
    obtain ⟨h1, -⟩ := h
    subst h1
    exact ⟨DBExtends.refl _, hex⟩
  · rw [if_neg hex] at h
    have hextorg : DBExtends s (if ThriveDB.organization_exists s item.organization then s
        else (s.appendOrganization item.organization).1) := by
      by_cases ho : ThriveDB.organization_exists s item.organization
      · rw [if_pos ho]; exact DBExtends.refl s
      · rw [if_neg ho]; exact extends_appendOrganization s item.organization
    obtain ⟨hext2, hex2⟩ := insertRepoRow_spec h
    exact ⟨hextorg.trans hext2, hex2⟩

lemma processItem_spec {tsf : String → Int} {cid : Nat} {s : DBState} {item : RepoItem}
    {s2 : DBState} {added : Bool} (h : processItem tsf cid s item = some (s2, added)) :
    DBExtends s s2 ∧ ItemDone s2 item := by
  rw [processItem] at h
  split at h
  · exact absurd h (by simp)
  · rename_i s1 b1 h1
    split at h
    · exact absurd h (by simp)
    · rename_i rid h2
      dsimp only at h
      split at h
      · exact absurd h (by simp)
      · rename_i s3 h3
        rw [Option.some_inj, Prod.mk.injEq] at h
        obtain ⟨hs, -⟩ := h
        subst hs
        obtain ⟨hext1, hex1⟩ := insertRepoStep_spec h1
        have hprev : ∀ t ∈ ThriveDB.get_repo_topics s1 (.id rid) none,
            t ∈ topicNamesOfRepoId s1 rid := fun t ht => mem_get_repo_topics_id.1 ht
        obtain ⟨hext3, hcov⟩ := addTopics_spec hprev h3 (DBExtends.refl s1)
        exact ⟨hext1.trans hext3,
          repo_exists_mono hext3 hex1, rid, get_repo_id_mono hext3 h2, hcov⟩

lemma processItem_noop {tsf : String → Int} {cid : Nat} {s : DBState} {item : RepoItem}
    (hd : ItemDone s item) : processItem tsf cid s item = some (s, false) := by
  obtain ⟨hex, rid, hg, hcov⟩ := hd
  have hall : ∀ t ∈ item.topics,
      (ThriveDB.get_repo_topics s (.id rid) none).contains t = true :=
    fun t ht => List.elem_eq_true_of_mem (mem_get_repo_topics_id.2 (hcov t ht))
  rw [processItem, insertRepoStep, if_pos hex]
  show (match ThriveDB.get_repo_id s item.full_name none with
    | none => none
    | some repo_id =>
      match addTopics repo_id (ThriveDB.get_repo_topics s (.id repo_id) none) s
          item.topics with
      | none => none
      | some s => some (s, false)) = some (s, false)
  rw [hg]
  show (match addTopics rid (ThriveDB.get_repo_topics s (.id rid) none) s item.topics with
    | none => none
    | some s => some (s, false)) = some (s, false)
  rw [addTopics_noop hall]

lemma mineItems_spec {tsf : String → Int} {cid : Nat} :
    ∀ {items : List RepoItem} {s : DBState} {n : Nat} {s2 : DBState} {n2 : Nat},
      mineItems tsf cid s items n = some (s2, n2) →
      DBExtends s s2 ∧ ∀ item ∈ items, ItemDone s2 item := by
  intro items
  induction items with
  | nil =>
    intro s n s2 n2 h
    rw [mineItems, Option.some_inj, Prod.mk.injEq] at h
    obtain ⟨h1, -⟩ := h
    subst h1
    exact ⟨DBExtends.refl _, by simp⟩
  | cons item rest ih =>
    intro s n s2 n2 h
    rw [mineItems] at h
    split at h
    · rename_i s1 added h1
      obtain ⟨hext1, hdone1⟩ := processItem_spec h1
      obtain ⟨hext2, hall⟩ := ih h
      refine ⟨hext1.trans hext2, ?_⟩
      intro x hx
      rcases List.mem_cons.1 hx with rfl | hxr
      · exact ItemDone_mono hext2 hdone1
      · exact hall x hxr
    · exact absurd h (by simp)

lemma mineItems_noop {tsf : String → Int} {cid : Nat} :
    ∀ {items : List RepoItem} {s : DBState} {n : Nat},
      (∀ item ∈ items, ItemDone s item) → mineItems tsf cid s items n = some (s, n) := by
  intro items
  induction items with
  | nil => intro s n _; rfl
  | cons item rest ih =>
    intro s n hall
    rw [mineItems, processItem_noop (hall item (List.mem_cons_self item rest))]
    exact ih fun x hx => hall x (List.mem_cons_of_mem item hx)

lemma mineTopicsLoop_spec {tsf : String → Int} {cid : Nat} :
    ∀ {data : List (List RepoItem)} {s : DBState} {counts : List Nat} {s2 : DBState}
      {counts2 : List Nat},
      mineTopicsLoop tsf cid s data counts = some (s2, counts2) →
      DBExtends s s2 ∧ ∀ items ∈ data, ∀ item ∈ items, ItemDone s2 item := by
  intro data
  induction data with
  | nil =>
    intro s counts s2 counts2 h
    rw [mineTopicsLoop, Option.some_inj, Prod.mk.injEq] at h
    obtain ⟨h1, -⟩ := h
    subst h1
    exact ⟨DBExtends.refl _, by simp⟩
  | cons items rest ih =>
    intro s counts s2 counts2 h
    rw [mineTopicsLoop] at h
    split at h
    · rename_i s1 n1 h1
      obtain ⟨hext1, hall1⟩ := mineItems_spec h1
      obtain ⟨hext2, hall2⟩ := ih h
      refine ⟨hext1.trans hext2, ?_⟩
      intro xs hxs x hx
      rcases List.mem_cons.1 hxs with rfl | hxr
      · exact ItemDone_mono hext2 (hall1 x hx)
      · exact hall2 xs hxr x hx
    · exact absurd h (by simp)

lemma mineTopicsLoop_noop {tsf : String → Int} {cid : Nat} :
    ∀ {data : List (List RepoItem)} {s : DBState} {counts : List Nat},
      (∀ items ∈ data, ∀ item ∈ items, ItemDone s item) →
      mineTopicsLoop tsf cid s data counts =
        some (s, counts ++ List.replicate data.length 0) := by
  intro data
  induction data with
  | nil => intro s counts _; simp [mineTopicsLoop]
  | cons items rest ih =>
    intro s counts hall
    rw [mineTopicsLoop,
      mineItems_noop (fun x hx => hall items (List.mem_cons_self items rest) x hx)]
    show mineTopicsLoop tsf cid s rest (counts ++ [0]) =
      some (s, counts ++ List.replicate (items :: rest).length 0)
    rw [ih fun xs hxs x hx => hall xs (List.mem_cons_of_mem items hxs) x hx]
    simp [List.replicate_succ]

/-- Claim C2: running the mining reconciler a second time with the
identical external search results adds zero new repos for every topic --
the per-topic counts of the second pass are all zero -- and the second
pass leaves the state as it was, so for every repo of the results
get_repo_topics returns the same sorted list after the second pass as
after the first. -/
theorem mine_topics_idempotent (tsf : String → Int) (s s1 : DBState)
    (data : List (List RepoItem)) (counts1 : List Nat)
    (h : ThriveScraper.mine_topics tsf s data = some (s1, counts1)) :
    ∃ s2, ThriveScraper.mine_topics tsf s1 data = some (s2, List.replicate data.length 0) ∧
      s2 = s1 ∧
      ∀ items ∈ data, ∀ item ∈ items,
        ThriveDB.get_repo_topics s2 (.str item.full_name) none =
          ThriveDB.get_repo_topics s1 (.str item.full_name) none := by
  rw [ThriveScraper.mine_topics] at h
  cases hc : ThriveDB.get_category_id s "none" with
  | none => rw [hc] at h; exact absurd h (by simp)
  | some cid =>
    rw [hc] at h
    obtain ⟨hext, hall⟩ := mineTopicsLoop_spec h
    refine ⟨s1, ?_, rfl, fun items _ item _ => rfl⟩
    rw [ThriveScraper.mine_topics, get_category_id_ext hext, hc]
    show mineTopicsLoop tsf cid s1 data [] =
      some (s1, List.replicate data.length 0)
    rw [mineTopicsLoop_noop hall]
    rfl

/-- Witness for claim C2: mining the end-to-end scenario record into a
fresh store and then mining the identical results again reports zero new
repos and returns the same sorted topic list. -/
theorem mine_topics_idempotent_witness :
    ∃ s2, ThriveScraper.mine_topics (fun _ => 0) wRun1.1 [[wItem]] =
        some (s2, List.replicate 1 0) ∧
      s2 = wRun1.1 ∧
      ∀ items ∈ [[wItem]], ∀ item ∈ items,
        ThriveDB.get_repo_topics s2 (.str item.full_name) none =
          ThriveDB.get_repo_topics wRun1.1 (.str item.full_name) none :=
  mine_topics_idempotent (fun _ => 0) wFresh wRun1.1 [[wItem]] wRun1.2 (by decide)

/-- Claim C8: a mining run only appends rows. The repos, organizations,
topics and repos_topics tables of the final state extend the initial ones
by a suffix of new rows, every other table is untouched, and in
particular every repo row that existed when the run started -- every
column of it -- is still present unchanged, since no update or delete
path is taken. -/
theorem mine_topics_append_only (tsf : String → Int) (s s1 : DBState)
    (data : List (List RepoItem)) (counts : List Nat)
    (h : ThriveScraper.mine_topics tsf s data = some (s1, counts)) :
    (∃ d, s1.repos = s.repos ++ d) ∧
    (∃ d, s1.organizations = s.organizations ++ d) ∧
    (∃ d, s1.topics = s.topics ++ d) ∧
    (∃ d, s1.repos_topics = s.repos_topics ++ d) ∧
    s1.metadata = s.metadata ∧ s1.categories = s.categories ∧
    s1.table_names = s.table_names ∧ s1.citations = s.citations ∧
    s1.contributors = s.contributors ∧ s1.commits = s.commits ∧
    s1.repos_commits = s.repos_commits ∧
    ∀ r ∈ s.repos, r ∈ s1.repos := by
  rw [ThriveScraper.mine_topics] at h
  cases hc : ThriveDB.get_category_id s "none" with
  | none => rw [hc] at h; exact absurd h (by simp)
  | some cid =>
    rw [hc] at h
    obtain ⟨hext, -⟩ := mineTopicsLoop_spec h
    obtain ⟨d, hd⟩ := hext.repos
    refine ⟨⟨d, hd⟩, hext.organizations, hext.topics, hext.repos_topics, hext.metadata,
      hext.categories, hext.table_names, hext.citations, hext.contributors,
      hext.commits, hext.repos_commits, ?_⟩
    intro r hr
    rw [hd]
    exact List.mem_append_left _ hr

/-- Witness for claim C8: the scenario run on the fresh store only adds
rows; in particular the fresh store had no repo rows and every one of its
tables reappears as a prefix of the mined state. -/
theorem mine_topics_append_only_witness :
    (∃ d, wRun1.1.repos = wFresh.repos ++ d) ∧
    (∃ d, wRun1.1.organizations = wFresh.organizations ++ d) ∧
    (∃ d, wRun1.1.topics = wFresh.topics ++ d) ∧
    (∃ d, wRun1.1.repos_topics = wFresh.repos_topics ++ d) ∧
    wRun1.1.metadata = wFresh.metadata ∧ wRun1.1.categories = wFresh.categories ∧
    wRun1.1.table_names = wFresh.table_names ∧ wRun1.1.citations = wFresh.citations ∧
    wRun1.1.contributors = wFresh.contributors ∧ wRun1.1.commits = wFresh.commits ∧
    wRun1.1.repos_commits = wFresh.repos_commits ∧
    ∀ r ∈ wFresh.repos, r ∈ wRun1.1.repos :=
  mine_topics_append_only (fun _ => 0) wFresh wRun1.1 [[wItem]] wRun1.2 (by decide)
